import Mathlib

/-!
# StoreDataToAirTable: payload normalisation of `handler`

A shallow embedding of `src/aws/StoreDataToAirTable.js`.

* JavaScript values produced by `JSON.parse` are the type `JVal`.  The extra
  constructor `undefined` is the result of reading a property that is absent.
* A JavaScript string is embedded as a Lean `String`.  The operations the
  handler applies to strings (concatenation, comparison with a literal, search
  for an ASCII needle, a regular expression built from the classes `\s`, `@`,
  `.` and their complement) give the same answer on UTF-16 code units and on
  Unicode scalar values for every well-formed string.
* IEEE doubles are not modelled.  A number is kept as the two observations the
  handler can make of it: whether it is `0` (falsy) and its `ToString` text.
* Code that may throw returns `Except JSError _`.
* The collaborators (S3 read, `JSON.parse`, `axios.patch`) are fields of
  `World`; `handler` returns the response together with the PATCH calls made.
-/

namespace StoreDataToAirTable

/-! ## Values -/

/-- A JSON number, kept abstract: `isZero` decides truthiness, `text` is the
result of `ToString`. -/
structure JSNumber where
  isZero : Bool
  text : String

/-- JavaScript values reachable from `JSON.parse`, plus `undefined`.
An object is the list of its own enumerable properties in `for ... in`
order. -/
inductive JVal where
  | undefined : JVal
  | null : JVal
  | bool (b : Bool) : JVal
  | num (n : JSNumber) : JVal
  | str (s : String) : JVal
  | arr (xs : List JVal) : JVal
  | obj (kvs : List (String × JVal)) : JVal

/-- Exceptions and promise rejections.  `rejected` carries the rejection
reason of a collaborator. -/
inductive JSError where
  | typeError : JSError
  | syntaxError : JSError
  | rejected (reason : JVal) : JSError

/-- ToBoolean. -/
def truthy : JVal → Bool
  | .undefined => false
  | .null => false
  | .bool b => b
  | .num n => !n.isZero
  | .str s => s != ""
  | .arr _ => true
  | .obj _ => true

/-- The expression `a || b`. -/
def jsOr (a b : JVal) : JVal := if truthy a then a else b

/-- Own enumerable properties in `for ... in` order: the members of an object,
the indices of an array; a primitive has none. -/
def ownEntries : JVal → List (String × JVal)
  | .obj kvs => kvs
  | .arr xs => xs.enum.map (fun p => (toString p.1, p.2))
  | _ => []

/-- Property read `v[key]` / `v.key`: throws on `null` and `undefined`, gives
`undefined` when the property is absent.  Only own properties are looked up:
none of the names the handler reads (`errorData`, `rowId`, `data`,
`artistEmail`, `Contact`, `Email`, `Name`, `Location`, `Theme`, `Medium`,
`message`, and the keys enumerated by `for ... in`) lives on a prototype. -/
def getProp (v : JVal) (key : String) : Except JSError JVal :=
  match v with
  | .undefined => .error .typeError
  | .null => .error .typeError
  | _ => .ok (((ownEntries v).lookup key).getD .undefined)

/-- Optional chaining `v?.key`. -/
def getPropOpt (v : JVal) (key : String) : JVal :=
  match v with
  | .undefined => .undefined
  | .null => .undefined
  | _ => ((ownEntries v).lookup key).getD .undefined

mutual
/-- ToString of a value (`Array.prototype.toString` is `join(",")`). -/
def jsToString : JVal → String
  | .undefined => "undefined"
  | .null => "null"
  | .bool b => if b then "true" else "false"
  | .num n => n.text
  | .str s => s
  | .arr xs => joinElems xs
  | .obj _ => "[object Object]"
termination_by structural v => v
/-- The elements of an array joined by `","`; `null` and `undefined` elements
contribute the empty string. -/
def joinElems : List JVal → String
  | [] => ""
  | x :: rest =>
    (match x with
      | .undefined => ""
      | .null => ""
      | v => jsToString v)
    ++ (match rest with
      | [] => ""
      | _ :: _ => "," ++ joinElems rest)
termination_by structural xs => xs
end

/-! ## String primitives -/

/-- Substring search on character lists: does `needle` occur in the list? -/
def includesChars (needle : List Char) : List Char → Bool
  | [] => needle.isPrefixOf []
  | c :: cs => needle.isPrefixOf (c :: cs) || includesChars needle cs

/-- The method `String.prototype.includes`. -/
def includes (s needle : String) : Bool := includesChars needle.data s.data

/-- The method call `v.includes(needle)` with a string argument: substring
search on a string, membership on an array, a TypeError on everything else
(no other JSON value has a callable `includes`). -/
def callIncludes (v : JVal) (needle : String) : Except JSError Bool :=
  match v with
  | .str s => .ok (includes s needle)
  | .arr xs => .ok (xs.any (fun x => match x with
      | .str t => t == needle
      | _ => false))
  | _ => .error .typeError

/-- The regular-expression class `\s`: WhiteSpace and LineTerminator code
points of ECMAScript. -/
def isWhiteSpace (c : Char) : Bool :=
  let n := c.toNat
  n == 0x09 || n == 0x0A || n == 0x0B || n == 0x0C || n == 0x0D || n == 0x20
    || n == 0xA0 || n == 0x1680 || (0x2000 ≤ n && n ≤ 0x200A)
    || n == 0x2028 || n == 0x2029 || n == 0x202F || n == 0x205F
    || n == 0x3000 || n == 0xFEFF

/-- The class `[^\s@]`. -/
def notSpaceAt (c : Char) : Bool := !isWhiteSpace c && c != '@'

/-- Backtracking matcher for `[cls]+` followed by the continuation `k`. -/
def reClassPlus (cls : Char → Bool) (k : List Char → Bool) : List Char → Bool
  | [] => false
  | c :: cs => cls c && (k cs || reClassPlus cls k cs)

/-- Matcher for the literal character `a` followed by the continuation `k`. -/
def reChar (a : Char) (k : List Char → Bool) : List Char → Bool
  | [] => false
  | c :: cs => c == a && k cs

/-- The anchor `$` (no `m` flag): end of input. -/
def reEnd : List Char → Bool
  | [] => true
  | _ :: _ => false

/-- Line 95, `regex.test(contact)` for
`/^[^\s@]+@[^\s@]+\.[^\s@]+$/`. -/
def regexTest (contact : String) : Bool :=
  reClassPlus notSpaceAt
    (reChar '@' (reClassPlus notSpaceAt
      (reChar '.' (reClassPlus notSpaceAt reEnd)))) contact.data

/-! ## The transform (lines 85–144) -/

/-- Lines 104–111: the `for (const key in contact)` loop over the remaining
keys, `contactField` being the lines pushed so far. -/
def contactLoop (contact : JVal) : List String → List String → Except JSError (List String)
  | [], contactField => .ok contactField
  | key :: keys, contactField =>
    match getProp contact key with
    | .error e => .error e
    | .ok v =>
      match callIncludes v "Not provided" with
      | .error e => .error e
      | .ok notProvided =>
        if notProvided || key == "Email" then
          contactLoop contact keys contactField
        else
          contactLoop contact keys (contactField ++ [key ++ (": " ++ jsToString v)])

/-- The two variables set by lines 92–115. -/
structure Flattened where
  contactField : List String
  contactEmail : JVal

/-- Lines 92–115: flatten the contact field. -/
def flattenContact (contact : JVal) : Except JSError Flattened :=
  match contact with
  | .str s =>
    if regexTest s then .ok ⟨["Not provided"], .str s⟩
    else .ok ⟨[s], .null⟩
  | _ =>
    match contactLoop contact ((ownEntries contact).map Prod.fst) [] with
    | .error e => .error e
    | .ok contactField =>
      if contactField.length == 0 then .ok ⟨["Not provided"], .null⟩
      else .ok ⟨contactField, .null⟩

/-- The comparison `v !== "NONE"`. -/
def notNONE : JVal → Bool
  | .str s => s != "NONE"
  | _ => true

/-- Lines 120–123. -/
def a_email (contactEmail contact artist_email : JVal) : JVal :=
  let a := jsOr (jsOr contactEmail (getPropOpt contact "Email")) (.str "Not Provided")
  if truthy artist_email && notNONE artist_email then artist_email else a

/-- Lines 125–135: the object `airtablePayLoad.fields`. -/
def payloadFields (artistData email : JVal) (contactField : List String) :
    Except JSError (List (String × JVal)) := do
  let name ← getProp artistData "Name"
  let location ← getProp artistData "Location"
  let theme ← getProp artistData "Theme"
  let medium ← getProp artistData "Medium"
  pure [("ArtistName", jsOr name (.str "")),
        ("Location", jsOr location (.str "")),
        ("ArtistEmail", email),
        ("Contact", .arr (contactField.map JVal.str)),
        ("Theme", jsOr theme (.arr [])),
        ("Medium", jsOr medium (.arr []))]

/-- One call `axios.patch(AIRTABLE_API_URL + "/" + row_id, body, headers)`. -/
structure PatchCall where
  row_id : JVal
  body : JVal

/-- Lines 85–144 of the data path: from the parsed record to the PATCH
request, or the exception raised on the way. -/
def dataRequest (store_data : JVal) : Except JSError PatchCall := do
  let artistData ← getProp store_data "data"
  let row_id ← getProp store_data "rowId"
  let artist_email ← getProp store_data "artistEmail"
  let contact ← getProp artistData "Contact"
  let flat ← flattenContact contact
  let email := a_email flat.contactEmail contact artist_email
  let fields ← payloadFields artistData email flat.contactField
  pure ⟨row_id, .obj [("fields", .obj fields), ("typecast", .bool true)]⟩

/-- Lines 50–60 of the error path: the PATCH request of an error report. -/
def errorRequest (store_data error_data : JVal) : Except JSError PatchCall := do
  let row_id ← getProp store_data "rowId"
  pure ⟨row_id, .obj [("fields", .obj [("Error", error_data)])]⟩

/-! ## The handler (lines 27–164) -/

/-- The collaborators of one invocation.
`fileContent` is the outcome of lines 29–38 (event decoding, `GetObject`,
`streamToString`); `axios_patch` gives `response.data` or the rejection
reason. -/
structure World where
  fileContent : Except JSError String
  JSON_parse : String → Except JSError JVal
  axios_patch : PatchCall → Except JVal JVal

/-- What `handler` resolves to; `body` is the argument of `JSON.stringify`
with the members it drops (value `undefined`) removed. -/
structure Response where
  statusCode : Nat
  body : JVal

/-- The members `JSON.stringify` keeps of an object literal. -/
def stringifyMembers (kvs : List (String × JVal)) : JVal :=
  .obj (kvs.filter (fun kv => match kv.2 with
    | .undefined => false
    | _ => true))

/-- Lines 69–72 and 153–156. -/
def success : Response :=
  ⟨200, stringifyMembers [("message", .str "Success")]⟩

/-- Lines 159–162, the outermost `catch`. -/
def failure : Response :=
  ⟨500, stringifyMembers [("message", .str "Error storing data in Airtable")]⟩

/-- Lines 73–81, the `catch` around the PATCH of the error path; reading
`airtableError.message` may itself throw, which lands in the outermost
`catch`. -/
def errorPathFailure (airtableError : JVal) : Response :=
  match getProp airtableError "message" with
  | .error _ => failure
  | .ok details =>
    ⟨500, stringifyMembers [("message", .str "Error storing data in Airtable"),
                           ("details", details)]⟩

/-- Lines 49–83. -/
def errorPath (w : World) (store_data error_data : JVal) : Response × List PatchCall :=
  match errorRequest store_data error_data with
  | .error _ => (failure, [])
  | .ok call =>
    match w.axios_patch call with
    | .ok _ => (success, [call])
    | .error airtableError => (errorPathFailure airtableError, [call])

/-- Lines 85–156. -/
def dataPath (w : World) (store_data : JVal) : Response × List PatchCall :=
  match dataRequest store_data with
  | .error _ => (failure, [])
  | .ok call =>
    match w.axios_patch call with
    | .ok _ => (success, [call])
    | .error _ => (failure, [call])

/-- The exported `handler`: the response and the PATCH calls issued, in
order.  A failed `JSON.parse` is rethrown by the inner `catch` (line 46) and
caught by the outermost one. -/
def handler (w : World) : Response × List PatchCall :=
  match w.fileContent with
  | .error _ => (failure, [])
  | .ok fileContent =>
    match w.JSON_parse fileContent with
    | .error _ => (failure, [])
    | .ok store_data =>
      match getProp store_data "errorData" with
      | .error _ => (failure, [])
      | .ok errorData =>
        if truthy errorData then errorPath w store_data errorData
        else dataPath w store_data

/-! ## Observations and input shapes used in the statements -/

/-- The field `name` of the payload of a PATCH call, `body.fields[name]`
(`undefined` when missing). -/
def PatchCall.field (call : PatchCall) (name : String) : JVal :=
  getPropOpt (getPropOpt call.body "fields") name

/-- The names of the members of `body.fields`, in order. -/
def PatchCall.fieldNames (call : PatchCall) : List String :=
  (ownEntries (getPropOpt call.body "fields")).map Prod.fst

/-- A structured contact: the object whose members are the given
channel-name / channel-value pairs, in iteration order. -/
def mapping (kvs : List (String × String)) : JVal :=
  .obj (kvs.map (fun kv => (kv.1, JVal.str kv.2)))

/-- The contact shapes of the data model: absent, null, a string, or an
object all of whose values are strings. -/
def isContactShape : JVal → Bool
  | .undefined => true
  | .null => true
  | .str _ => true
  | .obj kvs => kvs.all (fun kv => match kv.2 with
      | .str _ => true
      | _ => false)
  | _ => false

/-- A world in which the stored object parses to `store_data` and every PATCH
succeeds. -/
def worldOf (store_data : JVal) : World :=
  ⟨.ok "record.json", fun _ => .ok store_data, fun _ => .ok .null⟩

/-- A world in which the stored object is not JSON. -/
def worldUnparsable : World :=
  ⟨.ok "not json", fun _ => .error .syntaxError, fun _ => .ok .null⟩

/-- The PATCH request of the data path written out, given the parts of the
record. -/
def dataCall (store_data artistData contact : JVal) (flat : Flattened) : PatchCall :=
  ⟨getPropOpt store_data "rowId",
    .obj [("fields", .obj
      [("ArtistName", jsOr (getPropOpt artistData "Name") (.str "")),
       ("Location", jsOr (getPropOpt artistData "Location") (.str "")),
       ("ArtistEmail",
          a_email flat.contactEmail contact (getPropOpt store_data "artistEmail")),
       ("Contact", .arr (flat.contactField.map JVal.str)),
       ("Theme", jsOr (getPropOpt artistData "Theme") (.arr [])),
       ("Medium", jsOr (getPropOpt artistData "Medium") (.arr []))]),
      ("typecast", .bool true)]⟩

/-- The six payload fields of the data path, in the order of lines 127–132. -/
def dataFieldNames : List String :=
  ["ArtistName", "Location", "ArtistEmail", "Contact", "Theme", "Medium"]

/-- The PATCH request prepared from a parsed record: the error report when
`errorData` is truthy, the data payload otherwise (lines 49–144). -/
def request (store_data e : JVal) : Except JSError PatchCall :=
  if truthy e then errorRequest store_data e else dataRequest store_data

/-! ## The specification, in its own words -/

/-- Following the spec: an entry of a structured contact is kept when its
value does not contain the substring "Not provided" and its key is not
"Email". -/
def survives (kv : String × String) : Prop :=
  ¬ ("Not provided".data <:+: kv.2.data) ∧ kv.1 ≠ "Email"

instance survivesDecidable : DecidablePred survives :=
  fun _ => inferInstanceAs (Decidable (_ ∧ _))

/-- Following the spec: the lines `"<key>: <value>"` of the kept entries, in
iteration order. -/
def keptLines (kvs : List (String × String)) : List String :=
  (kvs.filter (fun kv => decide (survives kv))).map (fun kv => kv.1 ++ ": " ++ kv.2)

/-- Following the spec, precedence (1) and (2) of `resolveEmail`: the contact
string when it is email-shaped, else the non-empty `Email` entry of a contact
mapping, else the literal "Not Provided". -/
def contactDerivedEmail : JVal → String
  | .str s => if regexTest s then s else "Not Provided"
  | .obj kvs =>
    match kvs.lookup "Email" with
    | some (.str e) => if e = "" then "Not Provided" else e
    | _ => "Not Provided"
  | _ => "Not Provided"

/-- Following the spec, `out = v or dflt`: the attribute itself when it is
present and non-empty (truthy), the default when it is absent, null or the
empty string. -/
def DefaultsTo (v dflt out : JVal) : Prop :=
  (truthy v = true → out = v) ∧
  (v = .undefined ∨ v = .null ∨ v = .str "" → out = dflt)

/-- Following the claim: the read, the parse, the transform and the remote
write all succeed. -/
def AllSucceed (w : World) : Prop :=
  ∃ content store_data e call r,
    w.fileContent = .ok content ∧ w.JSON_parse content = .ok store_data ∧
    getProp store_data "errorData" = .ok e ∧ request store_data e = .ok call ∧
    w.axios_patch call = .ok r

/-- The members of a 500 body: the fixed message, optionally followed by
`details`, the `message` of the rejection reason of a PATCH. -/
def FailureBody (w : World) (body : JVal) : Prop :=
  ∃ rest, body = .obj (("message", .str "Error storing data in Airtable") :: rest) ∧
    (rest = [] ∨ ∃ d call reason, rest = [("details", d)] ∧
      w.axios_patch call = .error reason ∧ getProp reason "message" = .ok d)

/-- The handler treats the string contact `s` as an email address: it sets
the derived email to `s` and replaces the Contact list by ["Not provided"]. -/
def treatedAsEmail (s : String) : Prop :=
  flattenContact (.str s) = .ok ⟨["Not provided"], .str s⟩

/-- The shape `local@domain.tld` without the ASCII requirement: no whitespace
anywhere, exactly one "@" with a non-empty local part before it, and a domain
part containing a "." with non-empty text on both sides. -/
def EmailShape (s : String) : Prop :=
  (∀ c ∈ s.data, isWhiteSpace c = false) ∧ s.data.count '@' = 1 ∧
  ∃ loc dom, s.data = loc ++ '@' :: dom ∧ loc ≠ [] ∧
    ∃ b c, dom = b ++ '.' :: c ∧ b ≠ [] ∧ c ≠ []

/-- Following the spec: the standard shape, ASCII characters only. -/
def StandardShape (s : String) : Prop :=
  (∀ c ∈ s.data, c.toNat < 128) ∧ EmailShape s

/-! ## Scenarios of the specification -/

/-- The record `{rowId:"r1", data:{Name:"Jo", Contact:"jo@x.com"}}`. -/
def recordR1 : JVal :=
  .obj [("rowId", .str "r1"),
        ("data", .obj [("Name", .str "Jo"), ("Contact", .str "jo@x.com")])]

/-- The record `{rowId:"r2", data:{Contact:{Phone:"555-1234", Email:"a@b.com"}}}`. -/
def recordR2 : JVal :=
  .obj [("rowId", .str "r2"),
        ("data", .obj [("Contact", mapping [("Phone", "555-1234"), ("Email", "a@b.com")])])]

/-- The record `{rowId:"r3", errorData:"bad format"}`. -/
def recordR3 : JVal :=
  .obj [("rowId", .str "r3"), ("errorData", .str "bad format")]

/-- The record `{rowId:"r4", artistEmail:"me@art.org", data:{Contact:{Email:"a@b.com"}}}`. -/
def recordR4 : JVal :=
  .obj [("rowId", .str "r4"), ("artistEmail", .str "me@art.org"),
        ("data", .obj [("Contact", mapping [("Email", "a@b.com")])])]

/-! ## Basic facts -/

theorem getProp_ok_getPropOpt {v x : JVal} {k : String} (h : getProp v k = .ok x) :
    x = getPropOpt v k := by
  cases v <;> simp [getProp, getPropOpt] at h ⊢ <;> exact h.symm

theorem getProp_of_ok {v x : JVal} {k : String} (h : getProp v k = .ok x) (k' : String) :
    getProp v k' = .ok (getPropOpt v k') := by
  cases v <;> simp [getProp, getPropOpt] at h ⊢

theorem dataRequest_eq {store_data artistData contact : JVal} {flat : Flattened}
    (hD : getProp store_data "data" = .ok artistData)
    (hC : getProp artistData "Contact" = .ok contact)
    (hF : flattenContact contact = .ok flat) :
    dataRequest store_data = .ok (dataCall store_data artistData contact flat) := by
  simp only [dataRequest, payloadFields, hD, hC, hF, getProp_of_ok hD, getProp_of_ok hC,
    bind, Except.bind, pure, Except.pure, dataCall]

theorem handler_dataPath {w : World} {content : String} {store_data e : JVal}
    (hR : w.fileContent = .ok content) (hP : w.JSON_parse content = .ok store_data)
    (hE : getProp store_data "errorData" = .ok e) (he : truthy e = false) :
    handler w = dataPath w store_data := by
  simp [handler, hR, hP, hE, he]

theorem handler_errorPath {w : World} {content : String} {store_data e : JVal}
    (hR : w.fileContent = .ok content) (hP : w.JSON_parse content = .ok store_data)
    (hE : getProp store_data "errorData" = .ok e) (he : truthy e = true) :
    handler w = errorPath w store_data e := by
  simp [handler, hR, hP, hE, he]

theorem dataPath_calls {w : World} {store_data : JVal} {call : PatchCall}
    (h : dataRequest store_data = .ok call) : (dataPath w store_data).2 = [call] := by
  simp only [dataPath, h]
  cases w.axios_patch call <;> rfl

/-- The PATCH issued on the data path, given the record's parts and the
flattened contact. -/
theorem handler_data_call {w : World} {content : String}
    {store_data e artistData contact : JVal} {flat : Flattened}
    (hR : w.fileContent = .ok content) (hP : w.JSON_parse content = .ok store_data)
    (hE : getProp store_data "errorData" = .ok e) (he : truthy e = false)
    (hD : getProp store_data "data" = .ok artistData)
    (hC : getProp artistData "Contact" = .ok contact)
    (hF : flattenContact contact = .ok flat) :
    ∃ call, (handler w).2 = [call] ∧ call.row_id = getPropOpt store_data "rowId" ∧
      call.fieldNames =
        ["ArtistName", "Location", "ArtistEmail", "Contact", "Theme", "Medium"] ∧
      call.field "ArtistName" = jsOr (getPropOpt artistData "Name") (.str "") ∧
      call.field "Location" = jsOr (getPropOpt artistData "Location") (.str "") ∧
      call.field "ArtistEmail" =
        a_email flat.contactEmail contact (getPropOpt store_data "artistEmail") ∧
      call.field "Contact" = .arr (flat.contactField.map JVal.str) ∧
      call.field "Theme" = jsOr (getPropOpt artistData "Theme") (.arr []) ∧
      call.field "Medium" = jsOr (getPropOpt artistData "Medium") (.arr []) := by
  refine ⟨dataCall store_data artistData contact flat, ?_, ?_⟩
  · rw [handler_dataPath hR hP hE he]
    exact dataPath_calls (dataRequest_eq hD hC hF)
  · exact ⟨rfl, rfl, rfl, rfl, rfl, rfl, rfl, rfl⟩

/-! ## Strings: substring search and the regular expression -/

theorem includesChars_iff (needle hay : List Char) :
    includesChars needle hay = true ↔ needle <:+: hay := by
  induction hay with
  | nil => simp [includesChars]
  | cons c cs ih => simp [includesChars, ih, List.infix_cons_iff]

theorem includes_iff (s needle : String) :
    includes s needle = true ↔ needle.data <:+: s.data :=
  includesChars_iff _ _

theorem reClassPlus_iff (cls : Char → Bool) (k : List Char → Bool) (l : List Char) :
    reClassPlus cls k l = true ↔
      ∃ a b, l = a ++ b ∧ a ≠ [] ∧ (∀ c ∈ a, cls c = true) ∧ k b = true := by
  induction l with
  | nil =>
    simp only [reClassPlus, Bool.false_eq_true, false_iff]
    rintro ⟨a, b, h, ha, -⟩
    cases a with
    | nil => exact ha rfl
    | cons x xs => simp at h
  | cons c cs ih =>
    simp only [reClassPlus, Bool.and_eq_true, Bool.or_eq_true, ih]
    constructor
    · rintro ⟨hc, h | ⟨a, b, rfl, -, ha, hb⟩⟩
      · exact ⟨[c], cs, rfl, by simp, by simpa using hc, h⟩
      · exact ⟨c :: a, b, rfl, by simp, by simpa using ⟨hc, ha⟩, hb⟩
    · rintro ⟨a, b, h, ha, hcls, hb⟩
      cases a with
      | nil => exact absurd rfl ha
      | cons x xs =>
        simp only [List.cons_append, List.cons.injEq] at h
        obtain ⟨rfl, rfl⟩ := h
        refine ⟨hcls c (by simp), ?_⟩
        cases xs with
        | nil => exact Or.inl hb
        | cons y ys =>
          exact Or.inr ⟨y :: ys, b, rfl, by simp,
            fun z hz => hcls z (List.mem_cons_of_mem _ hz), hb⟩

theorem reChar_iff (a : Char) (k : List Char → Bool) (l : List Char) :
    reChar a k l = true ↔ ∃ b, l = a :: b ∧ k b = true := by
  cases l with
  | nil => simp [reChar]
  | cons c cs =>
    simp only [reChar, Bool.and_eq_true, beq_iff_eq, List.cons.injEq]
    constructor
    · rintro ⟨rfl, h⟩
      exact ⟨cs, ⟨rfl, rfl⟩, h⟩
    · rintro ⟨b, ⟨rfl, rfl⟩, h⟩
      exact ⟨rfl, h⟩

theorem reEnd_iff (l : List Char) : reEnd l = true ↔ l = [] := by
  cases l <;> simp [reEnd]

/-- The language of the regular expression of line 95. -/
theorem regexTest_iff (s : String) :
    regexTest s = true ↔
      ∃ a b c, s.data = a ++ '@' :: (b ++ '.' :: c) ∧ a ≠ [] ∧ b ≠ [] ∧ c ≠ [] ∧
        (∀ x ∈ a, notSpaceAt x = true) ∧ (∀ x ∈ b, notSpaceAt x = true) ∧
        (∀ x ∈ c, notSpaceAt x = true) := by
  unfold regexTest
  rw [reClassPlus_iff]
  constructor
  · rintro ⟨a, r, hs, ha, hA, hk⟩
    rw [reChar_iff] at hk
    obtain ⟨r', rfl, hk⟩ := hk
    rw [reClassPlus_iff] at hk
    obtain ⟨b, r'', rfl, hb, hB, hk⟩ := hk
    rw [reChar_iff] at hk
    obtain ⟨c, rfl, hk⟩ := hk
    rw [reClassPlus_iff] at hk
    obtain ⟨c', e, rfl, hc, hC, hk⟩ := hk
    rw [reEnd_iff] at hk
    subst hk
    exact ⟨a, b, c', by simpa using hs, ha, hb, hc, hA, hB, hC⟩
  · rintro ⟨a, b, c, hs, ha, hb, hc, hA, hB, hC⟩
    refine ⟨a, _, hs, ha, hA, ?_⟩
    rw [reChar_iff]
    refine ⟨_, rfl, ?_⟩
    rw [reClassPlus_iff]
    refine ⟨b, _, rfl, hb, hB, ?_⟩
    rw [reChar_iff]
    refine ⟨_, rfl, ?_⟩
    rw [reClassPlus_iff]
    exact ⟨c, [], by simp, hc, hC, rfl⟩

theorem regexTest_empty : regexTest "" = false := by decide

/-! ## The contact loop -/

theorem lookup_mapping_of_mem {kvs : List (String × String)}
    (hn : (kvs.map Prod.fst).Nodup) {k v : String} (h : (k, v) ∈ kvs) :
    (kvs.map (fun kv => (kv.1, JVal.str kv.2))).lookup k = some (.str v) := by
  induction kvs with
  | nil => simp at h
  | cons p ps ih =>
    obtain ⟨k', v'⟩ := p
    simp only [List.map_cons, List.nodup_cons, List.mem_map, not_exists, not_and] at hn
    simp only [List.mem_cons, Prod.mk.injEq] at h
    rcases h with ⟨rfl, rfl⟩ | h
    · simp [List.lookup]
    · have hne : k ≠ k' := fun hk => hn.1 (k, v) h hk
      have hb : (k == k') = false := by simpa using hne
      simp only [List.map_cons, List.lookup, hb]
      exact ih hn.2 h

theorem getProp_mapping_of_mem {kvs : List (String × String)}
    (hn : (kvs.map Prod.fst).Nodup) {k v : String} (h : (k, v) ∈ kvs) :
    getProp (mapping kvs) k = .ok (.str v) := by
  simp [getProp, mapping, ownEntries, lookup_mapping_of_mem hn h]

theorem contactLoop_mapping {kvs : List (String × String)}
    (hn : (kvs.map Prod.fst).Nodup) :
    ∀ (rest : List (String × String)) (acc : List String), (∀ kv ∈ rest, kv ∈ kvs) →
      contactLoop (mapping kvs) (rest.map Prod.fst) acc = .ok (acc ++ keptLines rest) := by
  intro rest
  induction rest with
  | nil => intro acc _; simp [contactLoop, keptLines]
  | cons p ps ih =>
    intro acc hsub
    obtain ⟨k, v⟩ := p
    have hmem : (k, v) ∈ kvs := hsub _ (List.mem_cons_self _ _)
    have hps : ∀ kv ∈ ps, kv ∈ kvs := fun kv h => hsub kv (List.mem_cons_of_mem _ h)
    simp only [List.map_cons, contactLoop, getProp_mapping_of_mem hn hmem, callIncludes,
      jsToString]
    by_cases hs : survives (k, v)
    · have h1 : includes v "Not provided" = false := by
        rw [← Bool.not_eq_true, includes_iff]; exact hs.1
      have h2 : (k == "Email") = false := by simpa using hs.2
      simp only [h1, h2, Bool.or_self, Bool.false_eq_true, if_false]
      rw [ih _ hps]
      simp [keptLines, hs, String.append_assoc]
    · have h3 : (includes v "Not provided" || k == "Email") = true := by
        unfold survives at hs
        by_cases hi : includes v "Not provided" = true
        · simp [hi]
        · have hk : k = "Email" := by
            by_contra hk
            exact hs ⟨fun h => hi ((includes_iff _ _).2 h), hk⟩
          simp [hk]
      simp only [h3, if_true]
      rw [ih _ hps]
      simp [keptLines, hs]

theorem lookup_strings {kvs : List (String × JVal)}
    (h : kvs.all (fun kv => match kv.2 with
      | .str _ => true
      | _ => false) = true) (k : String) :
    kvs.lookup k = none ∨ ∃ s, kvs.lookup k = some (.str s) := by
  induction kvs with
  | nil => simp
  | cons p ps ih =>
    obtain ⟨k', v'⟩ := p
    simp only [List.all_cons, Bool.and_eq_true] at h
    by_cases hk : (k == k') = true
    · right
      cases v' <;> simp_all [List.lookup]
    · simp only [Bool.not_eq_true] at hk
      simp only [List.lookup, hk]
      exact ih h.2

theorem lookup_of_mem_keys {kvs : List (String × JVal)} {k : String}
    (hk : k ∈ kvs.map Prod.fst) : kvs.lookup k ≠ none := by
  induction kvs with
  | nil => simp at hk
  | cons p ps ih =>
    obtain ⟨k', v'⟩ := p
    by_cases hb : (k == k') = true
    · simp [List.lookup, hb]
    · simp only [Bool.not_eq_true] at hb
      simp only [List.lookup, hb]
      apply ih
      simp only [List.map_cons, List.mem_cons] at hk
      rcases hk with rfl | hk
      · simp at hb
      · exact hk

theorem contactLoop_ok {contact : JVal} :
    ∀ (keys : List String) (acc : List String),
      (∀ k ∈ keys, ∃ s, getProp contact k = .ok (.str s)) →
      ∃ out, contactLoop contact keys acc = .ok out := by
  intro keys
  induction keys with
  | nil => intro acc _; exact ⟨acc, rfl⟩
  | cons k ks ih =>
    intro acc h
    obtain ⟨s, hs⟩ := h k (List.mem_cons_self _ _)
    have hks : ∀ k ∈ ks, ∃ s, getProp contact k = .ok (.str s) :=
      fun k' hk' => h k' (List.mem_cons_of_mem _ hk')
    simp only [contactLoop, hs, callIncludes]
    split
    · exact ih _ hks
    · exact ih _ hks

/-- On every contact of the data model the flattening returns, with at least
one line, and the derived email is either `null` or the email-shaped contact
string itself. -/
theorem flattenContact_shape {contact : JVal} (h : isContactShape contact = true) :
    ∃ flat, flattenContact contact = .ok flat ∧ flat.contactField ≠ [] ∧
      (flat.contactEmail = .null ∨
        ∃ s, contact = .str s ∧ regexTest s = true ∧ flat.contactEmail = .str s) := by
  cases contact with
  | undefined => exact ⟨⟨["Not provided"], .null⟩, rfl, by simp, Or.inl rfl⟩
  | null => exact ⟨⟨["Not provided"], .null⟩, rfl, by simp, Or.inl rfl⟩
  | bool b => simp [isContactShape] at h
  | num n => simp [isContactShape] at h
  | arr xs => simp [isContactShape] at h
  | str s =>
    by_cases hr : regexTest s = true
    · exact ⟨⟨["Not provided"], .str s⟩, by simp [flattenContact, hr], by simp,
        Or.inr ⟨s, rfl, hr, rfl⟩⟩
    · exact ⟨⟨[s], .null⟩, by simp [flattenContact, hr], by simp, Or.inl rfl⟩
  | obj kvs =>
    have hloop : ∃ out, contactLoop (.obj kvs) (kvs.map Prod.fst) [] = .ok out := by
      apply contactLoop_ok
      intro k hk
      rcases lookup_strings h k with hnone | ⟨s, hs⟩
      · exact absurd hnone (lookup_of_mem_keys hk)
      · exact ⟨s, by simp [getProp, ownEntries, hs]⟩
    obtain ⟨out, hout⟩ := hloop
    by_cases hlen : out.length = 0
    · exact ⟨⟨["Not provided"], .null⟩, by simp [flattenContact, ownEntries, hout, hlen],
        by simp, Or.inl rfl⟩
    · refine ⟨⟨out, .null⟩, by simp [flattenContact, ownEntries, hout, hlen], ?_, Or.inl rfl⟩
      intro h0
      have h1 : out = [] := h0
      exact hlen (by simp [h1])

theorem flattenContact_mapping {kvs : List (String × String)}
    (hn : (kvs.map Prod.fst).Nodup) :
    flattenContact (mapping kvs) =
      .ok ⟨if keptLines kvs = [] then ["Not provided"] else keptLines kvs, .null⟩ := by
  have h := contactLoop_mapping hn kvs [] (fun _ h => h)
  have hkeys : (ownEntries (mapping kvs)).map Prod.fst = kvs.map Prod.fst := by
    simp [mapping, ownEntries, Function.comp_def]
  simp only [List.nil_append] at h
  unfold flattenContact
  simp only [mapping] at h hkeys ⊢
  simp only [hkeys, h]
  by_cases he : keptLines kvs = []
  · simp [he]
  · simp [he]

/-! ## Email resolution and defaults -/

theorem truthy_ne {v : JVal} (h : truthy v = true) : v ≠ .null ∧ v ≠ .undefined := by
  cases v <;> simp [truthy] at h ⊢

theorem jsOr_ne (a : JVal) {d : JVal} (hd : d ≠ .null ∧ d ≠ .undefined) :
    jsOr a d ≠ .null ∧ jsOr a d ≠ .undefined := by
  unfold jsOr
  split
  · exact truthy_ne (by assumption)
  · exact hd

theorem a_email_ne (contactEmail contact artist_email : JVal) :
    a_email contactEmail contact artist_email ≠ .null ∧
      a_email contactEmail contact artist_email ≠ .undefined := by
  unfold a_email
  simp only
  split
  · rename_i h
    simp only [Bool.and_eq_true] at h
    exact truthy_ne h.1
  · exact jsOr_ne _ (by simp)

theorem jsOr_defaultsTo (v dflt : JVal) : DefaultsTo v dflt (jsOr v dflt) := by
  constructor
  · intro h; simp [jsOr, h]
  · rintro (h | h | h) <;> subst h <;> simp [jsOr, truthy]

theorem a_email_override (contactEmail contact : JVal) {email : String}
    (h1 : email ≠ "") (h2 : email ≠ "NONE") :
    a_email contactEmail contact (.str email) = .str email := by
  simp [a_email, truthy, notNONE, h1, h2]

theorem a_email_fallback (contactEmail contact : JVal) {ae : JVal}
    (h : truthy ae = false ∨ ae = .str "NONE") :
    a_email contactEmail contact ae =
      jsOr (jsOr contactEmail (getPropOpt contact "Email")) (.str "Not Provided") := by
  rcases h with h | h
  · simp [a_email, h]
  · subst h; simp [a_email, notNONE]

/-- Precedence (1) and (2) computed by line 120 agree with the spec's wording
on every contact of the data model. -/
theorem fallback_eq_contactDerivedEmail {contact : JVal} {flat : Flattened}
    (hS : isContactShape contact = true) (hF : flattenContact contact = .ok flat) :
    jsOr (jsOr flat.contactEmail (getPropOpt contact "Email")) (.str "Not Provided") =
      .str (contactDerivedEmail contact) := by
  cases contact with
  | undefined =>
    simp only [flattenContact, contactLoop, ownEntries, List.map_nil] at hF
    cases hF; rfl
  | null =>
    simp only [flattenContact, contactLoop, ownEntries, List.map_nil] at hF
    cases hF; rfl
  | bool b => simp [isContactShape] at hS
  | num n => simp [isContactShape] at hS
  | arr xs => simp [isContactShape] at hS
  | str s =>
    by_cases hr : regexTest s = true
    · simp only [flattenContact, hr, if_true] at hF
      cases hF
      have hne : s ≠ "" := by
        rintro rfl
        rw [regexTest_empty] at hr
        exact Bool.false_ne_true hr
      simp [jsOr, truthy, contactDerivedEmail, hr, hne]
    · simp only [flattenContact, hr] at hF
      cases hF
      simp [jsOr, truthy, contactDerivedEmail, hr, getPropOpt, ownEntries]
  | obj kvs =>
    obtain ⟨flat', hF', -, hE⟩ := flattenContact_shape hS
    rw [hF] at hF'
    cases hF'
    rcases hE with hE | ⟨s, hs, -⟩
    · rw [hE]
      rcases lookup_strings hS "Email" with hnone | ⟨e, he⟩
      · simp [jsOr, truthy, contactDerivedEmail, getPropOpt, ownEntries, hnone]
      · by_cases hem : e = ""
        · simp [jsOr, truthy, contactDerivedEmail, getPropOpt, ownEntries, he, hem]
        · simp [jsOr, truthy, contactDerivedEmail, getPropOpt, ownEntries, he, hem]
    · cases hs

/-! ## The payload of a data record -/

/-- C1: on a data record whose `data.Contact` is a string-to-string mapping
with entries `kvs` (taken as no entries when Contact is absent or null), the
payload's Contact list is the list of lines "key: value" of the entries whose
value does not contain "Not provided" and whose key is not "Email", in
iteration order, and is exactly ["Not provided"] when no entry survives. -/
theorem C1_contact_lines (w : World) (content : String)
    (store_data e artistData contact : JVal) (kvs : List (String × String))
    (hR : w.fileContent = .ok content) (hP : w.JSON_parse content = .ok store_data)
    (hE : getProp store_data "errorData" = .ok e) (he : truthy e = false)
    (hD : getProp store_data "data" = .ok artistData)
    (hC : getProp artistData "Contact" = .ok contact)
    (hM : (contact = mapping kvs ∧ (kvs.map Prod.fst).Nodup) ∨
      (kvs = [] ∧ (contact = .undefined ∨ contact = .null))) :
    ∃ call, (handler w).2 = [call] ∧
      call.field "Contact" =
        .arr ((if keptLines kvs = [] then ["Not provided"] else keptLines kvs).map JVal.str) := by
  have hF : flattenContact contact =
      .ok ⟨if keptLines kvs = [] then ["Not provided"] else keptLines kvs, .null⟩ := by
    rcases hM with ⟨rfl, hn⟩ | ⟨rfl, rfl | rfl⟩
    · exact flattenContact_mapping hn
    · rfl
    · rfl
  obtain ⟨call, h1, -, -, -, -, -, h2, -⟩ := handler_data_call hR hP hE he hD hC hF
  exact ⟨call, h1, h2⟩

/-- C1 at the record r2: the Phone entry is kept, the Email entry is not. -/
theorem C1_contact_lines_witness :
    ∃ call, (handler (worldOf recordR2)).2 = [call] ∧
      call.field "Contact" = .arr [.str "Phone: 555-1234"] := by
  have h := C1_contact_lines (worldOf recordR2) "record.json" recordR2 .undefined
    (.obj [("Contact", mapping [("Phone", "555-1234"), ("Email", "a@b.com")])])
    (mapping [("Phone", "555-1234"), ("Email", "a@b.com")])
    [("Phone", "555-1234"), ("Email", "a@b.com")] rfl rfl rfl rfl rfl rfl
    (Or.inl ⟨rfl, by decide⟩)
  have hk : keptLines [("Phone", "555-1234"), ("Email", "a@b.com")] = ["Phone: 555-1234"] := by
    decide
  simpa [hk] using h

/-- C2: on a data record whose artistEmail is a non-empty string other than
"NONE", the payload's ArtistEmail is artistEmail, for every contact of the
data model (string, mapping of strings, absent or null). -/
theorem C2_artistEmail_override (w : World) (content : String)
    (store_data e artistData contact : JVal) (email : String)
    (hR : w.fileContent = .ok content) (hP : w.JSON_parse content = .ok store_data)
    (hE : getProp store_data "errorData" = .ok e) (he : truthy e = false)
    (hD : getProp store_data "data" = .ok artistData)
    (hC : getProp artistData "Contact" = .ok contact)
    (hS : isContactShape contact = true)
    (hA : getProp store_data "artistEmail" = .ok (.str email))
    (h1 : email ≠ "") (h2 : email ≠ "NONE") :
    ∃ call, (handler w).2 = [call] ∧ call.field "ArtistEmail" = .str email := by
  obtain ⟨flat, hF, -, -⟩ := flattenContact_shape hS
  obtain ⟨call, hc, -, -, -, -, h, -⟩ := handler_data_call hR hP hE he hD hC hF
  refine ⟨call, hc, ?_⟩
  rw [h, ← getProp_ok_getPropOpt hA]
  exact a_email_override _ _ h1 h2

/-- C2 at the record r4, whose contact carries another Email entry. -/
theorem C2_artistEmail_override_witness :
    ∃ call, (handler (worldOf recordR4)).2 = [call] ∧
      call.field "ArtistEmail" = .str "me@art.org" :=
  C2_artistEmail_override (worldOf recordR4) "record.json" recordR4 .undefined
    (.obj [("Contact", mapping [("Email", "a@b.com")])]) (mapping [("Email", "a@b.com")])
    "me@art.org" rfl rfl rfl rfl rfl rfl rfl rfl (by decide) (by decide)

/-- C3: on a data record whose artistEmail is absent, empty (falsy) or "NONE",
the payload's ArtistEmail is the contact string when it matches the email
pattern, otherwise the non-empty Email entry of a structured contact,
otherwise "Not Provided"; and the record r2 yields Contact
["Phone: 555-1234"] and ArtistEmail "a@b.com". -/
theorem C3_email_fallback (w : World) (content : String)
    (store_data e artistData contact ae : JVal)
    (hR : w.fileContent = .ok content) (hP : w.JSON_parse content = .ok store_data)
    (hE : getProp store_data "errorData" = .ok e) (he : truthy e = false)
    (hD : getProp store_data "data" = .ok artistData)
    (hC : getProp artistData "Contact" = .ok contact)
    (hS : isContactShape contact = true)
    (hA : getProp store_data "artistEmail" = .ok ae)
    (hae : truthy ae = false ∨ ae = .str "NONE") :
    (∃ call, (handler w).2 = [call] ∧
      call.field "ArtistEmail" = .str (contactDerivedEmail contact)) ∧
    (∃ call, (handler (worldOf recordR2)).2 = [call] ∧
      call.field "Contact" = .arr [.str "Phone: 555-1234"] ∧
      call.field "ArtistEmail" = .str "a@b.com") := by
  constructor
  · obtain ⟨flat, hF, -, -⟩ := flattenContact_shape hS
    obtain ⟨call, hc, -, -, -, -, h, -⟩ := handler_data_call hR hP hE he hD hC hF
    refine ⟨call, hc, ?_⟩
    rw [h, ← getProp_ok_getPropOpt hA, a_email_fallback _ _ hae]
    exact fallback_eq_contactDerivedEmail hS hF
  · exact ⟨_, rfl, rfl, rfl⟩

/-- C3 at the record r2 (artistEmail absent, structured contact with Email). -/
theorem C3_email_fallback_witness :
    (∃ call, (handler (worldOf recordR2)).2 = [call] ∧
      call.field "ArtistEmail" = .str (contactDerivedEmail
        (mapping [("Phone", "555-1234"), ("Email", "a@b.com")]))) ∧
    (∃ call, (handler (worldOf recordR2)).2 = [call] ∧
      call.field "Contact" = .arr [.str "Phone: 555-1234"] ∧
      call.field "ArtistEmail" = .str "a@b.com") :=
  C3_email_fallback (worldOf recordR2) "record.json" recordR2 .undefined
    (.obj [("Contact", mapping [("Phone", "555-1234"), ("Email", "a@b.com")])])
    (mapping [("Phone", "555-1234"), ("Email", "a@b.com")]) .undefined
    rfl rfl rfl rfl rfl rfl rfl rfl (Or.inl rfl)

/-- C4: on a data record whose `data.Contact` is a string `s`: when `s`
matches the email pattern the payload's Contact list is ["Not provided"] and
the derived email is `s` (not null); when it does not match, the Contact list
is `[s]` and the derived email is null. -/
theorem C4_string_contact (w : World) (content : String)
    (store_data e artistData : JVal) (s : String)
    (hR : w.fileContent = .ok content) (hP : w.JSON_parse content = .ok store_data)
    (hE : getProp store_data "errorData" = .ok e) (he : truthy e = false)
    (hD : getProp store_data "data" = .ok artistData)
    (hC : getProp artistData "Contact" = .ok (.str s)) :
    ∃ call flat, (handler w).2 = [call] ∧ flattenContact (.str s) = .ok flat ∧
      call.field "Contact" = .arr (flat.contactField.map JVal.str) ∧
      (regexTest s = true →
        flat.contactField = ["Not provided"] ∧ flat.contactEmail = .str s ∧
          flat.contactEmail ≠ .null) ∧
      (regexTest s = false → flat.contactField = [s] ∧ flat.contactEmail = .null) := by
  by_cases hr : regexTest s = true
  · have hF : flattenContact (.str s) = .ok ⟨["Not provided"], .str s⟩ := by
      simp [flattenContact, hr]
    obtain ⟨call, hc, -, -, -, -, -, h, -⟩ := handler_data_call hR hP hE he hD hC hF
    exact ⟨call, _, hc, hF, h, fun _ => ⟨rfl, rfl, by simp⟩, fun h' => by simp [hr] at h'⟩
  · have hF : flattenContact (.str s) = .ok ⟨[s], .null⟩ := by
      simp [flattenContact, hr]
    obtain ⟨call, hc, -, -, -, -, -, h, -⟩ := handler_data_call hR hP hE he hD hC hF
    exact ⟨call, _, hc, hF, h, fun h' => absurd h' hr, fun _ => ⟨rfl, rfl⟩⟩

/-- C4 at the record r1, whose contact "jo@x.com" is email-shaped, together
with the whole PATCH request of that scenario. -/
theorem C4_string_contact_witness :
    (∃ call flat, (handler (worldOf recordR1)).2 = [call] ∧
      flattenContact (.str "jo@x.com") = .ok flat ∧
      call.field "Contact" = .arr (flat.contactField.map JVal.str) ∧
      (regexTest "jo@x.com" = true →
        flat.contactField = ["Not provided"] ∧ flat.contactEmail = .str "jo@x.com" ∧
          flat.contactEmail ≠ .null) ∧
      (regexTest "jo@x.com" = false →
        flat.contactField = ["jo@x.com"] ∧ flat.contactEmail = .null)) ∧
    regexTest "jo@x.com" = true ∧
    (handler (worldOf recordR1)).2 =
      [⟨.str "r1", .obj [("fields", .obj
        [("ArtistName", .str "Jo"), ("Location", .str ""), ("ArtistEmail", .str "jo@x.com"),
         ("Contact", .arr [.str "Not provided"]), ("Theme", .arr []), ("Medium", .arr [])]),
        ("typecast", .bool true)]⟩] :=
  ⟨C4_string_contact (worldOf recordR1) "record.json" recordR1 .undefined
    (.obj [("Name", .str "Jo"), ("Contact", .str "jo@x.com")]) "jo@x.com"
    rfl rfl rfl rfl rfl rfl, by decide, rfl⟩

/-! ## Error reports and the response contract -/

theorem dataRequest_fieldNames {store_data : JVal} {call : PatchCall}
    (h : dataRequest store_data = .ok call) : call.fieldNames = dataFieldNames := by
  unfold dataRequest at h
  cases hD : getProp store_data "data" with
  | error x => simp [hD, bind, Except.bind] at h
  | ok artistData =>
    cases hC : getProp artistData "Contact" with
    | error x => simp [hD, hC, getProp_of_ok hD, bind, Except.bind] at h
    | ok contact =>
      cases hF : flattenContact contact with
      | error x => simp [hD, hC, hF, getProp_of_ok hD, bind, Except.bind] at h
      | ok flat =>
        simp only [hD, hC, hF, getProp_of_ok hD, getProp_of_ok hC, payloadFields, bind,
          Except.bind, pure, Except.pure, Except.ok.injEq] at h
        subst h
        rfl

theorem dataPath_calls_sub (w : World) (store_data : JVal) :
    ∀ call ∈ (dataPath w store_data).2, call.fieldNames = dataFieldNames := by
  intro call hc
  unfold dataPath at hc
  cases hq : dataRequest store_data with
  | error x => simp [hq] at hc
  | ok c =>
    have hc' : call = c := by
      cases hp : w.axios_patch c <;> simp [hq, hp] at hc <;> exact hc
    subst hc'
    exact dataRequest_fieldNames hq

theorem errorPath_calls (w : World) {store_data e x : JVal}
    (hE : getProp store_data "errorData" = .ok x) :
    (errorPath w store_data e).2 =
      [⟨getPropOpt store_data "rowId", .obj [("fields", .obj [("Error", e)])]⟩] := by
  simp only [errorPath, errorRequest, getProp_of_ok hE, bind, Except.bind, pure, Except.pure]
  cases w.axios_patch _ <;> rfl

/-- C5: a record whose errorData is present and non-empty (truthy) takes the
error path: exactly one PATCH, addressed to rowId, whose fields hold the
single member Error with value errorData and none of the six data fields; the
calls are the same for any other record with the same errorData and rowId.  A
record whose errorData is absent or empty (falsy) takes the data path, whose
PATCH, if any, carries the six data fields and no Error field. -/
theorem C5_error_path_only (w : World) (content : String) (store_data e : JVal)
    (hR : w.fileContent = .ok content) (hP : w.JSON_parse content = .ok store_data)
    (hE : getProp store_data "errorData" = .ok e) :
    (truthy e = true →
      handler w = errorPath w store_data e ∧
      (∃ call, (handler w).2 = [call] ∧ call.row_id = getPropOpt store_data "rowId" ∧
        call.body = .obj [("fields", .obj [("Error", e)])] ∧
        call.fieldNames = ["Error"] ∧ call.field "Error" = e ∧
        ∀ name ∈ dataFieldNames, name ∉ call.fieldNames) ∧
      ∀ (w2 : World) (content2 : String) (store_data2 : JVal),
        w2.fileContent = .ok content2 → w2.JSON_parse content2 = .ok store_data2 →
        getProp store_data2 "errorData" = .ok e →
        getPropOpt store_data2 "rowId" = getPropOpt store_data "rowId" →
        (handler w2).2 = (handler w).2) ∧
    (truthy e = false →
      handler w = dataPath w store_data ∧
      ∀ call ∈ (handler w).2, call.fieldNames = dataFieldNames ∧
        "Error" ∉ call.fieldNames) := by
  constructor
  · intro he
    have h := handler_errorPath hR hP hE he
    refine ⟨h, ⟨⟨getPropOpt store_data "rowId", .obj [("fields", .obj [("Error", e)])]⟩,
      by rw [h]; exact errorPath_calls w hE, rfl, rfl, rfl, rfl, ?_⟩, ?_⟩
    · intro name hn
      simp only [dataFieldNames, List.mem_cons, List.mem_singleton, List.not_mem_nil,
        or_false] at hn
      rcases hn with rfl | rfl | rfl | rfl | rfl | rfl <;>
        simp [PatchCall.fieldNames, getPropOpt, ownEntries, List.lookup]
    · intro w2 content2 store_data2 hR2 hP2 hE2 hrow
      rw [h, handler_errorPath hR2 hP2 hE2 he, errorPath_calls w hE, errorPath_calls w2 hE2,
        hrow]
  · intro he
    have h := handler_dataPath hR hP hE he
    refine ⟨h, ?_⟩
    intro call hc
    rw [h] at hc
    have hf := dataPath_calls_sub w store_data call hc
    refine ⟨hf, ?_⟩
    rw [hf]
    decide

/-- C5 at the record r3: one PATCH to "r3" writing only the Error field. -/
theorem C5_error_path_only_witness :
    (handler (worldOf recordR3)).2 =
      [⟨.str "r3", .obj [("fields", .obj [("Error", .str "bad format")])]⟩] := by
  have h := (C5_error_path_only (worldOf recordR3) "record.json" recordR3 (.str "bad format")
    rfl rfl rfl).1 rfl
  rw [h.1]
  rfl

/-- C6: on a data record of the data model, ArtistName and Location are
`data.Name` and `data.Location` when present and non-empty and "" when absent,
null or empty; Theme and Medium are `data.Theme` and `data.Medium` when
present and [] when absent, null or the empty string; and none of the six
payload fields is null or undefined. -/
theorem C6_defaults (w : World) (content : String)
    (store_data e artistData contact : JVal)
    (hR : w.fileContent = .ok content) (hP : w.JSON_parse content = .ok store_data)
    (hE : getProp store_data "errorData" = .ok e) (he : truthy e = false)
    (hD : getProp store_data "data" = .ok artistData)
    (hC : getProp artistData "Contact" = .ok contact)
    (hS : isContactShape contact = true) :
    ∃ call, (handler w).2 = [call] ∧ call.fieldNames = dataFieldNames ∧
      DefaultsTo (getPropOpt artistData "Name") (.str "") (call.field "ArtistName") ∧
      DefaultsTo (getPropOpt artistData "Location") (.str "") (call.field "Location") ∧
      DefaultsTo (getPropOpt artistData "Theme") (.arr []) (call.field "Theme") ∧
      DefaultsTo (getPropOpt artistData "Medium") (.arr []) (call.field "Medium") ∧
      ∀ name ∈ dataFieldNames, call.field name ≠ .null ∧ call.field name ≠ .undefined := by
  obtain ⟨flat, hF, -, -⟩ := flattenContact_shape hS
  obtain ⟨call, hc, -, hn, h1, h2, h3, h4, h5, h6⟩ :=
    handler_data_call hR hP hE he hD hC hF
  refine ⟨call, hc, hn, ?_, ?_, ?_, ?_, ?_⟩
  · rw [h1]; exact jsOr_defaultsTo _ _
  · rw [h2]; exact jsOr_defaultsTo _ _
  · rw [h5]; exact jsOr_defaultsTo _ _
  · rw [h6]; exact jsOr_defaultsTo _ _
  · intro name hname
    simp only [dataFieldNames, List.mem_cons, List.mem_singleton, List.not_mem_nil,
      or_false] at hname
    rcases hname with rfl | rfl | rfl | rfl | rfl | rfl
    · rw [h1]; exact jsOr_ne _ (by simp)
    · rw [h2]; exact jsOr_ne _ (by simp)
    · rw [h3]; exact a_email_ne _ _ _
    · rw [h4]; simp
    · rw [h5]; exact jsOr_ne _ (by simp)
    · rw [h6]; exact jsOr_ne _ (by simp)

/-- C6 at the record r1: Name is kept, Location, Theme and Medium default. -/
theorem C6_defaults_witness :
    ∃ call, (handler (worldOf recordR1)).2 = [call] ∧
      call.field "ArtistName" = .str "Jo" ∧ call.field "Location" = .str "" ∧
      call.field "Theme" = .arr [] ∧ call.field "Medium" = .arr [] := by
  obtain ⟨call, hc, -, h1, h2, h3, h4, -⟩ :=
    C6_defaults (worldOf recordR1) "record.json" recordR1 .undefined
      (.obj [("Name", .str "Jo"), ("Contact", .str "jo@x.com")]) (.str "jo@x.com")
      rfl rfl rfl rfl rfl rfl rfl
  exact ⟨call, hc, h1.1 rfl, h2.2 (Or.inl rfl), h3.2 (Or.inl rfl), h4.2 (Or.inl rfl)⟩

theorem failureBody_failure (w : World) : FailureBody w failure.body :=
  ⟨[], rfl, Or.inl rfl⟩

theorem failureBody_errorPathFailure (w : World) {call : PatchCall} {reason : JVal}
    (h : w.axios_patch call = .error reason) :
    (errorPathFailure reason).statusCode = 500 ∧
      FailureBody w (errorPathFailure reason).body := by
  unfold errorPathFailure
  cases hm : getProp reason "message" with
  | error x => exact ⟨rfl, failureBody_failure w⟩
  | ok d =>
    refine ⟨rfl, ?_⟩
    cases d with
    | undefined => exact ⟨[], rfl, Or.inl rfl⟩
    | null => exact ⟨[("details", .null)], rfl, Or.inr ⟨_, call, reason, rfl, h, hm⟩⟩
    | bool b => exact ⟨[("details", .bool b)], rfl, Or.inr ⟨_, call, reason, rfl, h, hm⟩⟩
    | num n => exact ⟨[("details", .num n)], rfl, Or.inr ⟨_, call, reason, rfl, h, hm⟩⟩
    | str t => exact ⟨[("details", .str t)], rfl, Or.inr ⟨_, call, reason, rfl, h, hm⟩⟩
    | arr xs => exact ⟨[("details", .arr xs)], rfl, Or.inr ⟨_, call, reason, rfl, h, hm⟩⟩
    | obj kvs => exact ⟨[("details", .obj kvs)], rfl, Or.inr ⟨_, call, reason, rfl, h, hm⟩⟩

/-- Every invocation ends in one of two ways: everything succeeded and the
response is `success`, or something failed and the response is a 500 with a
failure body. -/
theorem handler_outcome (w : World) :
    (AllSucceed w ∧ (handler w).1 = success) ∨
    (¬ AllSucceed w ∧ (handler w).1.statusCode = 500 ∧ FailureBody w (handler w).1.body) := by
  cases hR : w.fileContent with
  | error x =>
    have hh : handler w = (failure, []) := by simp [handler, hR]
    rw [hh]
    refine Or.inr ⟨?_, rfl, failureBody_failure w⟩
    rintro ⟨c, sd, e, call, r, h1, -⟩
    rw [hR] at h1; cases h1
  | ok content =>
    cases hP : w.JSON_parse content with
    | error x =>
      have hh : handler w = (failure, []) := by simp [handler, hR, hP]
      rw [hh]
      refine Or.inr ⟨?_, rfl, failureBody_failure w⟩
      rintro ⟨c, sd, e, call, r, h1, h2, -⟩
      rw [hR] at h1; cases h1
      rw [hP] at h2; cases h2
    | ok store_data =>
      cases hE : getProp store_data "errorData" with
      | error x =>
        have hh : handler w = (failure, []) := by simp [handler, hR, hP, hE]
        rw [hh]
        refine Or.inr ⟨?_, rfl, failureBody_failure w⟩
        rintro ⟨c, sd, e, call, r, h1, h2, h3, -⟩
        rw [hR] at h1; cases h1
        rw [hP] at h2; cases h2
        rw [hE] at h3; cases h3
      | ok e =>
        have key : ∀ (P : Prop), (∀ call r, request store_data e = .ok call →
            w.axios_patch call = .ok r → P) → AllSucceed w → P := by
          rintro P hP' ⟨c, sd, e', call, r, h1, h2, h3, h4, h5⟩
          rw [hR] at h1; cases h1
          rw [hP] at h2; cases h2
          rw [hE] at h3; cases h3
          exact hP' call r h4 h5
        by_cases he : truthy e = true
        · have hreq : request store_data e = errorRequest store_data e := by
            simp [request, he]
          rw [handler_errorPath hR hP hE he]
          cases hq : errorRequest store_data e with
          | error x =>
            have hh : errorPath w store_data e = (failure, []) := by simp [errorPath, hq]
            rw [hh]
            refine Or.inr ⟨?_, rfl, failureBody_failure w⟩
            apply key
            intro call r h4 _
            rw [hreq, hq] at h4; cases h4
          | ok call =>
            cases hp : w.axios_patch call with
            | ok r =>
              have hh : errorPath w store_data e = (success, [call]) := by
                simp [errorPath, hq, hp]
              rw [hh]
              exact Or.inl ⟨⟨content, store_data, e, call, r, hR, hP, hE,
                by rw [hreq, hq], hp⟩, rfl⟩
            | error reason =>
              have hh : errorPath w store_data e = (errorPathFailure reason, [call]) := by
                simp [errorPath, hq, hp]
              rw [hh]
              refine Or.inr ⟨?_, failureBody_errorPathFailure w hp⟩
              apply key
              intro call' r h4 h5
              rw [hreq, hq] at h4
              cases h4
              rw [hp] at h5; cases h5
        · simp only [Bool.not_eq_true] at he
          have hreq : request store_data e = dataRequest store_data := by
            simp [request, he]
          rw [handler_dataPath hR hP hE he]
          cases hq : dataRequest store_data with
          | error x =>
            have hh : dataPath w store_data = (failure, []) := by simp [dataPath, hq]
            rw [hh]
            refine Or.inr ⟨?_, rfl, failureBody_failure w⟩
            apply key
            intro call r h4 _
            rw [hreq, hq] at h4; cases h4
          | ok call =>
            cases hp : w.axios_patch call with
            | ok r =>
              have hh : dataPath w store_data = (success, [call]) := by
                simp [dataPath, hq, hp]
              rw [hh]
              exact Or.inl ⟨⟨content, store_data, e, call, r, hR, hP, hE,
                by rw [hreq, hq], hp⟩, rfl⟩
            | error reason =>
              have hh : dataPath w store_data = (failure, [call]) := by
                simp [dataPath, hq, hp]
              rw [hh]
              refine Or.inr ⟨?_, rfl, failureBody_failure w⟩
              apply key
              intro call' r h4 h5
              rw [hreq, hq] at h4
              cases h4
              rw [hp] at h5; cases h5

/-- C7: with the storage read, the JSON parse and the remote PATCH as steps
that succeed or fail, `handler` always returns a response: status 200 with
body {"message": "Success"} exactly when the read, the parse, the transform
and the remote write all succeed, and otherwise status 500 with a body whose
message is "Error storing data in Airtable", optionally followed by details. -/
theorem C7_response_contract (w : World) :
    ((handler w).1.statusCode = 200 ↔ AllSucceed w) ∧
    (AllSucceed w → (handler w).1.body = .obj [("message", .str "Success")]) ∧
    (¬ AllSucceed w → (handler w).1.statusCode = 500 ∧ FailureBody w (handler w).1.body) := by
  rcases handler_outcome w with ⟨h, hs⟩ | ⟨h, hc, hb⟩
  · exact ⟨⟨fun _ => h, fun _ => by rw [hs]; rfl⟩, fun _ => by rw [hs]; rfl,
      fun hn => absurd h hn⟩
  · refine ⟨⟨fun h2 => ?_, fun ha => absurd ha h⟩, fun ha => absurd ha h, fun _ => ⟨hc, hb⟩⟩
    rw [hc] at h2
    exact absurd h2 (by decide)

/-- C8: when the content of the storage object is not parsable as JSON,
`handler` returns status 500 and the sequence of PATCH calls is empty. -/
theorem C8_unparsable (w : World) (content : String) (err : JSError)
    (hR : w.fileContent = .ok content) (hP : w.JSON_parse content = .error err) :
    (handler w).1.statusCode = 500 ∧ (handler w).2 = [] := by
  simp [handler, hR, hP, failure]

/-- C8 in a world whose object is not JSON. -/
theorem C8_unparsable_witness :
    (handler worldUnparsable).1.statusCode = 500 ∧ (handler worldUnparsable).2 = [] :=
  C8_unparsable worldUnparsable "not json" .syntaxError rfl rfl

/-! ## The email pattern -/

theorem treatedAsEmail_iff (s : String) : treatedAsEmail s ↔ regexTest s = true := by
  unfold treatedAsEmail flattenContact
  by_cases h : regexTest s = true
  · simp [h]
  · simp [h]

theorem notSpaceAt_iff (c : Char) :
    notSpaceAt c = true ↔ isWhiteSpace c = false ∧ c ≠ '@' := by
  simp [notSpaceAt]

theorem emailShape_of_regexTest {s : String} (h : regexTest s = true) : EmailShape s := by
  obtain ⟨a, b, c, hs, ha, hb, hc, hA, hB, hC⟩ := (regexTest_iff s).1 h
  have cnt : ∀ l : List Char, (∀ x ∈ l, notSpaceAt x = true) → l.count '@' = 0 := by
    intro l hl
    rw [List.count_eq_zero]
    intro hmem
    exact ((notSpaceAt_iff _).1 (hl _ hmem)).2 rfl
  refine ⟨?_, ?_, a, b ++ '.' :: c, hs, ha, b, c, rfl, hb, hc⟩
  · intro x hx
    rw [hs] at hx
    simp only [List.mem_append, List.mem_cons] at hx
    rcases hx with hx | rfl | hx | rfl | hx
    · exact ((notSpaceAt_iff _).1 (hA _ hx)).1
    · decide
    · exact ((notSpaceAt_iff _).1 (hB _ hx)).1
    · decide
    · exact ((notSpaceAt_iff _).1 (hC _ hx)).1
  · rw [hs]
    simp [List.count_append, List.count_cons, cnt a hA, cnt b hB, cnt c hC]

/-- C9 as stated fails: the contact "é@b.c" is treated as an email address
although it is not made of ASCII characters only. -/
theorem C9_counterexample : treatedAsEmail "é@b.c" ∧ ¬ StandardShape "é@b.c" :=
  ⟨rfl, fun h => absurd (h.1 'é' (by decide)) (by decide)⟩

/-- C9 amended: a string contact is treated as an email address only if it
contains no whitespace anywhere, contains exactly one "@" with a non-empty
local part before it, and its domain part after the "@" contains a "." with
non-empty text on both sides. -/
theorem C9_email_shape (s : String) (h : treatedAsEmail s) : EmailShape s :=
  emailShape_of_regexTest ((treatedAsEmail_iff s).1 h)

/-- C9 amended at the contact "jo@x.com". -/
theorem C9_email_shape_witness : EmailShape "jo@x.com" :=
  C9_email_shape "jo@x.com" rfl

/-! ## Payload invariant -/

/-- C10: on a data record of the data model (Contact absent, null, a string
or a mapping of strings; artistEmail absent or a string), the payload's
Contact field is a non-empty list of strings and its ArtistEmail field is a
non-empty string. -/
theorem C10_nonempty_fields (w : World) (content : String)
    (store_data e artistData contact ae : JVal)
    (hR : w.fileContent = .ok content) (hP : w.JSON_parse content = .ok store_data)
    (hE : getProp store_data "errorData" = .ok e) (he : truthy e = false)
    (hD : getProp store_data "data" = .ok artistData)
    (hC : getProp artistData "Contact" = .ok contact)
    (hS : isContactShape contact = true)
    (hA : getProp store_data "artistEmail" = .ok ae)
    (hae : ae = .undefined ∨ ∃ t, ae = .str t) :
    ∃ call lines email, (handler w).2 = [call] ∧
      call.field "Contact" = .arr (lines.map JVal.str) ∧ lines ≠ [] ∧
      call.field "ArtistEmail" = .str email ∧ email ≠ "" := by
  obtain ⟨flat, hF, hne, -⟩ := flattenContact_shape hS
  obtain ⟨call, hc, -, -, -, -, h3, h4, -⟩ := handler_data_call hR hP hE he hD hC hF
  rw [← getProp_ok_getPropOpt hA] at h3
  have hfb : ∃ m, contactDerivedEmail contact = m ∧ m ≠ "" := by
    refine ⟨_, rfl, ?_⟩
    cases contact with
    | str s =>
      by_cases hr : regexTest s = true
      · have hs : s ≠ "" := by
          rintro rfl
          rw [regexTest_empty] at hr
          exact Bool.false_ne_true hr
        simp [contactDerivedEmail, hr, hs]
      · simp [contactDerivedEmail, hr]
    | obj kvs =>
      simp only [contactDerivedEmail]
      split
      · split
        · decide
        · assumption
      · decide
    | undefined => simp [contactDerivedEmail]
    | null => simp [contactDerivedEmail]
    | bool b => simp [contactDerivedEmail]
    | num n => simp [contactDerivedEmail]
    | arr xs => simp [contactDerivedEmail]
  obtain ⟨m, hm, hmne⟩ := hfb
  have hfall : ∀ x, (truthy x = false ∨ x = .str "NONE") →
      a_email flat.contactEmail contact x = .str m := by
    intro x hx
    rw [a_email_fallback _ _ hx, fallback_eq_contactDerivedEmail hS hF, hm]
  rcases hae with rfl | ⟨t, rfl⟩
  · exact ⟨call, flat.contactField, m, hc, h4, hne, by rw [h3]; exact hfall _ (Or.inl rfl),
      hmne⟩
  · by_cases h1 : t = ""
    · subst h1
      exact ⟨call, flat.contactField, m, hc, h4, hne,
        by rw [h3]; exact hfall _ (Or.inl rfl), hmne⟩
    · by_cases h2 : t = "NONE"
      · subst h2
        exact ⟨call, flat.contactField, m, hc, h4, hne,
          by rw [h3]; exact hfall _ (Or.inr rfl), hmne⟩
      · exact ⟨call, flat.contactField, t, hc, h4, hne,
          by rw [h3]; exact a_email_override _ _ h1 h2, h1⟩

/-- C10 at the record r2. -/
theorem C10_nonempty_fields_witness :
    ∃ call lines email, (handler (worldOf recordR2)).2 = [call] ∧
      call.field "Contact" = .arr (lines.map JVal.str) ∧ lines ≠ [] ∧
      call.field "ArtistEmail" = .str email ∧ email ≠ "" :=
  C10_nonempty_fields (worldOf recordR2) "record.json" recordR2 .undefined
    (.obj [("Contact", mapping [("Phone", "555-1234"), ("Email", "a@b.com")])])
    (mapping [("Phone", "555-1234"), ("Email", "a@b.com")]) .undefined
    rfl rfl rfl rfl rfl rfl rfl rfl (Or.inl rfl)

end StoreDataToAirTable
